import Mathlib

/-!
Shallow embedding of the aggregation and rendering logic of
`apps/nouns-camp/src/components/treasury-dialog.js` and of the members screen
(`src/unnamed/part_000`) of the frontend monorepo.

JavaScript strings are modelled as `List Char` (`JsString`), JavaScript
`BigInt` values as `Int`, and values that are absent until an asynchronous
source resolves (`null`/`undefined`) as `Option`.
-/

/-- Model of a JavaScript string: a sequence of characters. -/
abbrev JsString := List Char

/-- Model of `String.prototype.endsWith`: `s.endsWith(suff)`. -/
def jsEndsWith (s suff : JsString) : Bool :=
  List.isSuffixOf suff s

/-- Model of `String.prototype.trim`: strips whitespace from both ends. -/
def jsTrim (s : JsString) : JsString :=
  ((s.dropWhile Char.isWhitespace).reverse.dropWhile Char.isWhitespace).reverse

/-- Model of `String.prototype.toLowerCase`. -/
def jsToLower (s : JsString) : JsString :=
  s.map Char.toLower

/-- Model of `String.prototype.includes`: substring containment. -/
def jsIncludes (s q : JsString) : Bool :=
  s.tails.any fun t => q.isPrefixOf t

/-! ## Treasury dialog: requested-asset aggregation (`useAssetsDeployed`) -/

/-- A requested-asset amount as produced by `extractAmounts`: a currency tag, a
`BigInt` amount, and (for the nouns currency) the transferred token ids. -/
structure Asset where
  currency : JsString
  amount : Int
  tokens : List Nat
deriving DecidableEq, Repr

/-- `assets.find(({ currency }) => currency === "eth")?.amount ?? 0n` from
`useAssetsDeployed` in `treasury-dialog.js`. -/
def ethBucketAmount (assets : List Asset) : Int :=
  match assets.find? (fun a => a.currency == "eth".data) with
  | some a => a.amount
  | none => 0

/-- One step of the `reduce` in `useAssetsDeployed` (`treasury-dialog.js`
lines 90-101): a currency tag ending in `"eth"` is folded into a single
`"eth"` bucket placed at the head of the list; any other asset is appended. -/
def mergeAssetsStep (assets : List Asset) (asset : Asset) : List Asset :=
  if jsEndsWith asset.currency "eth".data then
    { currency := "eth".data, amount := ethBucketAmount assets + asset.amount, tokens := [] }
      :: assets.filter (fun a => !(a.currency == "eth".data))
  else
    assets ++ [asset]

/-- The full `reduce` over the requested assets in `useAssetsDeployed`. -/
def mergeRequestedAssets (assets : List Asset) : List Asset :=
  assets.foldl mergeAssetsStep []

/-! ## Treasury dialog: USDC to ETH conversion (`useChainlinkUsdcToEthConverter`) -/

/-- `useChainlinkUsdcToEthConverter` from `treasury-dialog.js`: when the
Chainlink rate has not resolved (`rate == null`) no converter is produced;
otherwise the converter is `(usdc) => (usdc * 10n ** 23n) / rate`.  JavaScript
`BigInt` division truncates toward zero, which `Int.tdiv` models. -/
def useChainlinkUsdcToEthConverter (rate : Option Int) : Option (Int → Int) :=
  match rate with
  | none => none
  | some r => some fun usdc => Int.tdiv (usdc * 10 ^ 23) r

/-! ## Treasury dialog: auction proceeds (`useAuctionProceeds`) -/

/-- The shape of the subgraph auctions query built by `useAuctionProceeds`
(`treasury-dialog.js` lines 46-55). -/
structure AuctionsQuery where
  settledOnly : Bool
  orderBy : JsString
  orderDirection : JsString
  first : Nat
deriving DecidableEq, Repr

/-- The query issued by `useAuctionProceeds` for a given day count. -/
def auctionsQuery (days : Nat) : AuctionsQuery :=
  { settledOnly := true
    orderBy := "startTime".data
    orderDirection := "desc".data
    first := days }

/-- The `reduce` in `useAuctionProceeds` summing the `amount` of each fetched
auction, starting from `BigInt(0)`. -/
def useAuctionProceeds (auctionAmounts : List Int) : Int :=
  auctionAmounts.foldl (fun sum amount => sum + amount) 0

/-! ## Treasury dialog: balances (`useBalances`) -/

/-- The record returned by `useBalances` (`treasury-dialog.js` lines 126-179);
each field is independently `Option` until its own asynchronous source
resolves. -/
structure Balances where
  treasuryEth : Option Int
  daoProxyEth : Option Int
  tokenBuyerEth : Option Int
  treasuryUsdc : Option Int
  treasuryWeth : Option Int
  treasuryReth : Option Int
  treasurySteth : Option Int
  treasuryWsteth : Option Int
  forkEscrowNouns : Option Int
  treasuryNouns : Option Int
deriving DecidableEq, Repr

/-- `useBalances` assembles the ten independent source values into the
`Balances` record, one field per source. -/
def useBalances (treasuryEthBalance daoProxyEthBalance tokenBuyerEthBalance
    treasuryUsdc treasuryWeth treasuryReth treasurySteth treasuryWsteth
    forkEscrowNouns treasuryNouns : Option Int) : Balances :=
  { treasuryEth := treasuryEthBalance
    daoProxyEth := daoProxyEthBalance
    tokenBuyerEth := tokenBuyerEthBalance
    treasuryUsdc := treasuryUsdc
    treasuryWeth := treasuryWeth
    treasuryReth := treasuryReth
    treasurySteth := treasurySteth
    treasuryWsteth := treasuryWsteth
    forkEscrowNouns := forkEscrowNouns
    treasuryNouns := treasuryNouns }

/-! ## Treasury dialog: rendering (`Content`) -/

/-- The displayed value of a definition-list cell in the treasury dialog. -/
inductive CellValue where
  | ethFormatted (amount : Int)
  | usdcFormatted (amount : Int) (ethEquivalent : Option Int)
  | rawNumber (amount : Int)
deriving DecidableEq, Repr

/-- One `dt`/`dd` pair of the treasury dialog: the label and the rendered
value (`none` when nothing is rendered in the `dd`). -/
structure OverviewRow where
  label : JsString
  value : Option CellValue
deriving DecidableEq, Repr

/-- The immediately-invoked function rendering one asset-overview `dd`
(`treasury-dialog.js` lines 284-322): `null` when the amount has not
resolved, otherwise a switch on the `formatting` tag with a `Number(amount)`
default. -/
def renderOverviewAmount (formatting : Option JsString)
    (convertUsdcToEth : Option (Int → Int)) (amount : Option Int) : Option CellValue :=
  match amount with
  | none => none
  | some a =>
    if formatting == some "eth".data then
      some (.ethFormatted a)
    else if formatting == some "usdc".data then
      some (.usdcFormatted a (convertUsdcToEth.map fun f => f a))
    else
      some (.rawNumber a)

/-- The seven rows of the "Asset overview" section (`treasury-dialog.js`
lines 244-326); every row's label is rendered unconditionally, only the value
cell depends on resolution. -/
def assetOverviewRows (b : Balances) (convertUsdcToEth : Option (Int → Int)) :
    List OverviewRow :=
  [ { label := "ETH".data
      value := renderOverviewAmount (some "eth".data) convertUsdcToEth b.treasuryEth }
  , { label := "stETH".data
      value := renderOverviewAmount (some "eth".data) convertUsdcToEth b.treasurySteth }
  , { label := "USDC".data
      value := renderOverviewAmount (some "usdc".data) convertUsdcToEth b.treasuryUsdc }
  , { label := "rETH".data
      value := renderOverviewAmount (some "eth".data) convertUsdcToEth b.treasuryReth }
  , { label := "wETH".data
      value := renderOverviewAmount (some "eth".data) convertUsdcToEth b.treasuryWeth }
  , { label := "wstETH".data
      value := renderOverviewAmount (some "eth".data) convertUsdcToEth b.treasuryWsteth }
  , { label := "Nouns".data
      value := renderOverviewAmount none convertUsdcToEth b.treasuryNouns } ]

/-- The "Other contracts" section (`treasury-dialog.js` lines 411-461): each
`dt`/`dd` pair is guarded by `value != null &&`, so an unresolved source's
row is omitted entirely. -/
def otherContractsRows (tokenBuyerEth daoProxyEth forkEscrowNouns : Option Int) :
    List OverviewRow :=
  (match tokenBuyerEth with
   | none => []
   | some v => [{ label := "Token Buyer".data, value := some (.ethFormatted v) }]) ++
  (match daoProxyEth with
   | none => []
   | some v => [{ label := "DAO Proxy".data, value := some (.ethFormatted v) }]) ++
  (match forkEscrowNouns with
   | none => []
   | some v => [{ label := "Fork Escrow".data, value := some (.rawNumber v) }])

/-- The rendered form of one entry of the "Assets deployed" list. -/
inductive DeployedAssetView where
  | ethFormatted (amount : Int)
  | usdcFormatted (amount : Int) (ethEquivalent : Option Int)
  | nounCount (count : Nat)
deriving DecidableEq, Repr

/-- The switch on `asset.currency` rendering one "Assets deployed" entry
(`treasury-dialog.js` lines 353-401); the `default` branch is
`throw new Error()`, modelled as `Except.error`. -/
def renderDeployedAsset (convertUsdcToEth : Option (Int → Int)) (asset : Asset) :
    Except Unit DeployedAssetView :=
  if asset.currency == "eth".data then
    .ok (.ethFormatted asset.amount)
  else if asset.currency == "usdc".data then
    .ok (.usdcFormatted asset.amount (convertUsdcToEth.map fun f => f asset.amount))
  else if asset.currency == "nouns".data then
    .ok (.nounCount asset.tokens.length)
  else
    .error ()

/-! ## Members screen (`src/unnamed/part_000`) -/

/-- A member as delivered by `state.selectChannelMembers`: the upstream roster
entry carries no `isBlocked`/`isStarred` flags (those are added by the
annotation below). -/
structure RosterMember where
  id : JsString
  displayName : JsString
  ensName : Option JsString
  walletAddress : JsString
deriving DecidableEq, Repr

/-- A roster member after the per-render annotation in `filteredMembers`. -/
structure AnnotatedMember where
  id : JsString
  displayName : JsString
  ensName : Option JsString
  walletAddress : JsString
  isBlocked : Bool
  isStarred : Bool
deriving DecidableEq, Repr

/-- The `members.map` callback of `filteredMembers` (`part_000` lines 56-64):
the viewer's own entry gets a `" (you)"` display-name suffix, otherwise a
blocked member gets `isBlocked` (returning before the starred check), otherwise
a starred member gets `isStarred`. -/
def annotateMember (meId : JsString) (isUserBlocked : JsString → Bool)
    (starredUserIds : List JsString) (m : RosterMember) : AnnotatedMember :=
  if m.id == meId then
    { id := m.id, displayName := m.displayName ++ " (you)".data, ensName := m.ensName
      walletAddress := m.walletAddress, isBlocked := false, isStarred := false }
  else if isUserBlocked m.id then
    { id := m.id, displayName := m.displayName, ensName := m.ensName
      walletAddress := m.walletAddress, isBlocked := true, isStarred := false }
  else if starredUserIds.contains m.id then
    { id := m.id, displayName := m.displayName, ensName := m.ensName
      walletAddress := m.walletAddress, isBlocked := false, isStarred := true }
  else
    { id := m.id, displayName := m.displayName, ensName := m.ensName
      walletAddress := m.walletAddress, isBlocked := false, isStarred := false }

/-- Modelled from the spec: `createUserDefaultComparator` of
`@shades/common/utils/user` is not under `src/`; the spec describes it as
case-insensitive display-name ordering with an implementation-defined
tie-break. -/
def userDefaultLe (a b : AnnotatedMember) : Bool :=
  decide (jsToLower a.displayName ≤ jsToLower b.displayName)

/-- Modelled from the spec: `sort` of `@shades/common/utils/array` is not
under `src/`; it is a stable comparator sort, modelled with
`List.insertionSort` over the default comparator. -/
def sortMembers (l : List AnnotatedMember) : List AnnotatedMember :=
  l.insertionSort fun a b => userDefaultLe a b = true

/-- Modelled from the spec: the match predicate of `searchUsers` of
`@shades/common/utils/user` (not under `src/`): a member matches when the
query substring-matches the display name, the ENS name, or the address
(case-insensitively). -/
def memberMatches (query : JsString) (m : AnnotatedMember) : Bool :=
  jsIncludes (jsToLower m.displayName) (jsToLower query) ||
  (match m.ensName with
   | some e => jsIncludes (jsToLower e) (jsToLower query)
   | none => false) ||
  jsIncludes (jsToLower m.walletAddress) (jsToLower query)

/-- Modelled from the spec: the relevance rank used by `searchUsers` ordering
(display-name match before ENS match before address match). -/
def searchRelevance (query : JsString) (m : AnnotatedMember) : Nat :=
  if jsIncludes (jsToLower m.displayName) (jsToLower query) then 0
  else if (match m.ensName with
           | some e => jsIncludes (jsToLower e) (jsToLower query)
           | none => false) then 1
  else 2

/-- Modelled from the spec: `searchUsers` of `@shades/common/utils/user` (not
under `src/`): keep exactly the members matching the query, in relevance
order. -/
def searchUsers (l : List AnnotatedMember) (query : JsString) : List AnnotatedMember :=
  (l.filter (memberMatches query)).insertionSort
    fun a b => searchRelevance query a ≤ searchRelevance query b

/-- The `filteredMembers` memo of the members screen (`part_000` lines 53-70):
annotate the roster, then either return everything sorted by the default
comparator (trimmed query of length at most 1) or run the user search. -/
def filteredMembers (meId : JsString) (isUserBlocked : JsString → Bool)
    (starredUserIds : List JsString) (members : List RosterMember)
    (pendingInput : JsString) : List AnnotatedMember :=
  let query := jsTrim pendingInput
  let unfilteredMembers := members.map (annotateMember meId isUserBlocked starredUserIds)
  if query.length ≤ 1 then
    sortMembers unfilteredMembers
  else
    searchUsers unfilteredMembers query

/-! ## Theorems -/

/-- Claim C1: merging an eth-family amount into the accumulating list folds
every currency tag ending in `"eth"` into a single `"eth"` bucket by `BigInt`
summation: an input list with one eth transfer of 2×10^18 and one steth
transfer of 1×10^18 merges to `[{currency := "eth", amount := 3×10^18}]`,
while `treasuryEth` and `treasurySteth` remain distinct fields of the
balance-overview record, each carrying its own source value. -/
theorem ethFamilyMerge_and_distinct_balances :
    mergeRequestedAssets
      [ { currency := "eth".data, amount := 2 * 10 ^ 18, tokens := [] }
      , { currency := "steth".data, amount := 1 * 10 ^ 18, tokens := [] } ] =
      [ { currency := "eth".data, amount := 3 * 10 ^ 18, tokens := [] } ] ∧
    ∀ (te dp tb tu tw tr ts twst fe tn : Option Int),
      (useBalances te dp tb tu tw tr ts twst fe tn).treasuryEth = te ∧
      (useBalances te dp tb tu tw tr ts twst fe tn).treasurySteth = ts :=
  ⟨by decide, fun _ _ _ _ _ _ _ _ _ _ => ⟨rfl, rfl⟩⟩

/-- Claim C2 counterexample: with treasury ETH resolved to 5×10^18 and every
other source (USDC included) unresolved, the asset overview does not show
only the ETH row: the USDC row is still present with an empty value cell, and
all seven row labels render. -/
theorem unresolvedUsdcRow_still_present :
    ({ label := "USDC".data, value := none } : OverviewRow) ∈
      assetOverviewRows
        (useBalances (some (5 * 10 ^ 18)) none none none none none none none none none)
        none ∧
    (assetOverviewRows
        (useBalances (some (5 * 10 ^ 18)) none none none none none none none none none)
        none).length = 7 := by
  decide

/-- Claim C2 amended: an unresolved source renders an empty value cell (never
zero and never an error); in the asset overview the row's label still renders
with an empty value cell, while in the Other-contracts section the whole row
is omitted.  In the scenario (treasury ETH 5×10^18, everything else
unresolved) only the ETH row carries a value. -/
theorem unresolvedSource_renders_nothing :
    (∀ (fmt : Option JsString) (conv : Option (Int → Int)),
      renderOverviewAmount fmt conv none = none) ∧
    assetOverviewRows
        (useBalances (some (5 * 10 ^ 18)) none none none none none none none none none)
        none =
      [ { label := "ETH".data, value := some (.ethFormatted (5 * 10 ^ 18)) }
      , { label := "stETH".data, value := none }
      , { label := "USDC".data, value := none }
      , { label := "rETH".data, value := none }
      , { label := "wETH".data, value := none }
      , { label := "wstETH".data, value := none }
      , { label := "Nouns".data, value := none } ] ∧
    (∀ (dp fe : Option Int),
      (otherContractsRows none dp fe).all
        (fun r => !(r.label == "Token Buyer".data)) = true) ∧
    otherContractsRows none none none = [] := by
  refine ⟨fun _ _ => rfl, by decide, ?_, rfl⟩
  intro dp fe
  cases dp <;> cases fe <;> simp +decide [otherContractsRows]

/-- Claim C3: with an available oracle rate `R > 0` the converter exists and
maps a USDC base-unit amount `A ≥ 0` to exactly `(A * 10^23) / R` by integer
floor division; with an unavailable rate no converter is produced, and both
renderers then omit the ETH-equivalent hint of a USD-denominated amount. -/
theorem usdcToEthConversion_correct (A R : Int) (hA : 0 ≤ A) (hR : 0 < R) :
    (∃ f, useChainlinkUsdcToEthConverter (some R) = some f ∧
      f A = Int.fdiv (A * 10 ^ 23) R ∧ f A = A * 10 ^ 23 / R) ∧
    useChainlinkUsdcToEthConverter none = none ∧
    renderOverviewAmount (some "usdc".data) (useChainlinkUsdcToEthConverter none) (some A) =
      some (.usdcFormatted A none) ∧
    renderDeployedAsset (useChainlinkUsdcToEthConverter none)
        { currency := "usdc".data, amount := A, tokens := [] } =
      .ok (.usdcFormatted A none) := by
  have h23 : (0 : Int) ≤ A * 10 ^ 23 := mul_nonneg hA (by norm_num)
  refine ⟨⟨_, rfl, ?_, ?_⟩, rfl, rfl, rfl⟩
  · show Int.tdiv (A * 10 ^ 23) R = Int.fdiv (A * 10 ^ 23) R
    rw [Int.tdiv_eq_ediv h23 hR.le, Int.fdiv_eq_ediv _ hR.le]
  · show Int.tdiv (A * 10 ^ 23) R = A * 10 ^ 23 / R
    exact Int.tdiv_eq_ediv h23 hR.le

/-- Witness for the C3 theorem at `A = 3`, `R = 2`. -/
theorem usdcToEthConversion_correct_witness :
    (∃ f, useChainlinkUsdcToEthConverter (some 2) = some f ∧
      f 3 = Int.fdiv (3 * 10 ^ 23) 2 ∧ f 3 = 3 * 10 ^ 23 / 2) ∧
    useChainlinkUsdcToEthConverter none = none ∧
    renderOverviewAmount (some "usdc".data) (useChainlinkUsdcToEthConverter none) (some 3) =
      some (.usdcFormatted 3 none) ∧
    renderDeployedAsset (useChainlinkUsdcToEthConverter none)
        { currency := "usdc".data, amount := 3, tokens := [] } =
      .ok (.usdcFormatted 3 none) :=
  usdcToEthConversion_correct 3 2 (by decide) (by decide)

/-- Claim C4 counterexample: two usdc input assets are not merged by the
assets-deployed `reduce`: the output keeps two separate `"usdc"` entries
rather than a single summed one. -/
theorem usdcAssets_not_merged :
    mergeRequestedAssets
      [ { currency := "usdc".data, amount := 1, tokens := [] }
      , { currency := "usdc".data, amount := 2, tokens := [] } ] =
      [ { currency := "usdc".data, amount := 1, tokens := [] }
      , { currency := "usdc".data, amount := 2, tokens := [] } ] ∧
    (mergeRequestedAssets
      [ { currency := "usdc".data, amount := 1, tokens := [] }
      , { currency := "usdc".data, amount := 2, tokens := [] } ]).length = 2 := by
  decide

/-- Claim C4 amended: in the assets-deployed aggregation only eth-family
currencies merge: a pair of assets whose currency tags end in `"eth"` folds
into the single `"eth"` entry with the summed amount, while a same-currency
pair outside the eth family is appended as two separate entries. -/
theorem mergeRequestedAssets_pair (a b c d : Asset)
    (hab : a.currency = b.currency)
    (ha : jsEndsWith a.currency "eth".data = false)
    (hc : jsEndsWith c.currency "eth".data = true)
    (hd : jsEndsWith d.currency "eth".data = true) :
    mergeRequestedAssets [a, b] = [a, b] ∧
    mergeRequestedAssets [c, d] =
      [{ currency := "eth".data, amount := c.amount + d.amount, tokens := [] }] := by
  constructor
  · have hb : jsEndsWith b.currency "eth".data = false := hab ▸ ha
    simp [mergeRequestedAssets, mergeAssetsStep, ha, hb]
  · simp [mergeRequestedAssets, mergeAssetsStep, hc, hd, ethBucketAmount]

/-- Witness for the C4 amended theorem: a usdc pair stays separate, a
steth/weth pair folds into one summed `"eth"` entry. -/
theorem mergeRequestedAssets_pair_witness :
    mergeRequestedAssets
      [ { currency := "usdc".data, amount := 3, tokens := [] }
      , { currency := "usdc".data, amount := 4, tokens := [] } ] =
      [ { currency := "usdc".data, amount := 3, tokens := [] }
      , { currency := "usdc".data, amount := 4, tokens := [] } ] ∧
    mergeRequestedAssets
      [ { currency := "steth".data, amount := 5, tokens := [] }
      , { currency := "weth".data, amount := 7, tokens := [] } ] =
      [ { currency := "eth".data, amount := 5 + 7, tokens := [] } ] :=
  mergeRequestedAssets_pair _ _ _ _ rfl (by decide) (by decide) (by decide)

/-- Claim C8: rendering one assets-deployed entry succeeds exactly when the
asset's currency tag is in the handled enumeration (`"eth"`, `"usdc"`,
`"nouns"`); any other tag hits the `default: throw new Error()` branch. -/
theorem renderDeployedAsset_ok_iff (conv : Option (Int → Int)) (asset : Asset) :
    (renderDeployedAsset conv asset).isOk =
      (asset.currency == "eth".data || asset.currency == "usdc".data ||
        asset.currency == "nouns".data) := by
  unfold renderDeployedAsset
  split_ifs <;> simp_all [Except.isOk, Except.toBool]

/-- Claim C9: the auction-proceeds aggregate is the sum of the `amount` field
over the auctions returned by the query; the query requests the most recent
`days` settled auctions ordered by start time descending; and the sum over an
empty auction list is `0`. -/
theorem auctionProceeds_sum (days : Nat) (amounts : List Int) :
    useAuctionProceeds amounts = amounts.sum ∧
    auctionsQuery days =
      { settledOnly := true, orderBy := "startTime".data
        orderDirection := "desc".data, first := days } ∧
    useAuctionProceeds [] = 0 :=
  ⟨by simp [useAuctionProceeds, List.sum_eq_foldl], rfl, rfl⟩

/-- Annotation never changes a member's id, whichever branch applies. -/
theorem annotateMember_id (meId : JsString) (isUserBlocked : JsString → Bool)
    (starredUserIds : List JsString) (x : RosterMember) :
    (annotateMember meId isUserBlocked starredUserIds x).id = x.id := by
  unfold annotateMember
  split_ifs <;> rfl

/-- Every member of the filter output comes from the annotated roster,
whether the short-query sort branch or the search branch produced it. -/
theorem mem_annotated_of_mem_filteredMembers {meId : JsString}
    {isUserBlocked : JsString → Bool} {starredUserIds : List JsString}
    {members : List RosterMember} {pendingInput : JsString} {m : AnnotatedMember}
    (hm : m ∈ filteredMembers meId isUserBlocked starredUserIds members pendingInput) :
    m ∈ members.map (annotateMember meId isUserBlocked starredUserIds) := by
  simp only [filteredMembers, sortMembers, searchUsers] at hm
  split at hm
  · exact ((List.perm_insertionSort _ _).mem_iff).1 hm
  · exact (List.mem_filter.1 (((List.perm_insertionSort _ _).mem_iff).1 hm)).1

/-- Claim C5: for every roster and every query whose trimmed length is at
most 1, the member filter returns every annotated member exactly once (the
output is a permutation of the annotated roster) and the output is sorted by
the default comparator. -/
theorem filteredMembers_shortQuery_returns_all (meId : JsString)
    (isUserBlocked : JsString → Bool) (starredUserIds : List JsString)
    (members : List RosterMember) (pendingInput : JsString)
    (h : (jsTrim pendingInput).length ≤ 1) :
    (filteredMembers meId isUserBlocked starredUserIds members pendingInput).Perm
      (members.map (annotateMember meId isUserBlocked starredUserIds)) ∧
    List.Sorted (fun a b => userDefaultLe a b = true)
      (filteredMembers meId isUserBlocked starredUserIds members pendingInput) := by
  haveI : IsTotal AnnotatedMember (fun a b => userDefaultLe a b = true) := by
    constructor
    intro a b
    unfold userDefaultLe
    rcases le_total (jsToLower a.displayName) (jsToLower b.displayName) with h' | h'
    · exact Or.inl (decide_eq_true h')
    · exact Or.inr (decide_eq_true h')
  haveI : IsTrans AnnotatedMember (fun a b => userDefaultLe a b = true) := by
    constructor
    intro a b c hab hbc
    unfold userDefaultLe at *
    exact decide_eq_true (le_trans (of_decide_eq_true hab) (of_decide_eq_true hbc))
  simp only [filteredMembers, sortMembers, h, if_true]
  exact ⟨List.perm_insertionSort _ _, List.sorted_insertionSort _ _⟩

/-- Witness for the C5 theorem on a two-member roster with an empty query. -/
theorem filteredMembers_shortQuery_returns_all_witness :
    (filteredMembers "1".data (fun _ => false) []
      [ { id := "1".data, displayName := "Alice".data, ensName := none, walletAddress := "0xa".data }
      , { id := "2".data, displayName := "Bob".data, ensName := none, walletAddress := "0xb".data } ]
      "".data).Perm
      ([ { id := "1".data, displayName := "Alice".data, ensName := none, walletAddress := "0xa".data }
       , { id := "2".data, displayName := "Bob".data, ensName := none, walletAddress := "0xb".data }
       ].map (annotateMember "1".data (fun _ => false) [])) ∧
    List.Sorted (fun a b => userDefaultLe a b = true)
      (filteredMembers "1".data (fun _ => false) []
        [ { id := "1".data, displayName := "Alice".data, ensName := none, walletAddress := "0xa".data }
        , { id := "2".data, displayName := "Bob".data, ensName := none, walletAddress := "0xb".data } ]
        "".data) :=
  filteredMembers_shortQuery_returns_all "1".data (fun _ => false) []
    [ { id := "1".data, displayName := "Alice".data, ensName := none, walletAddress := "0xa".data }
    , { id := "2".data, displayName := "Bob".data, ensName := none, walletAddress := "0xb".data } ]
    "".data (by decide)

/-- Claim C6: no member of the filter output ever carries both the
`isBlocked` and the `isStarred` flag: the blocked branch returns before the
starred check runs. -/
theorem filteredMembers_blocked_never_starred (meId : JsString)
    (isUserBlocked : JsString → Bool) (starredUserIds : List JsString)
    (members : List RosterMember) (pendingInput : JsString) (m : AnnotatedMember)
    (hm : m ∈ filteredMembers meId isUserBlocked starredUserIds members pendingInput) :
    ¬(m.isBlocked = true ∧ m.isStarred = true) := by
  obtain ⟨x, -, rfl⟩ := List.mem_map.1 (mem_annotated_of_mem_filteredMembers hm)
  unfold annotateMember
  split_ifs <;> simp

/-- Witness for the C6 theorem: a member that is both blocked and starred
upstream comes out blocked and not starred. -/
theorem filteredMembers_blocked_never_starred_witness :
    ¬(({ id := "2".data, displayName := "Bob".data, ensName := none
         walletAddress := "0xb".data, isBlocked := true, isStarred := false }
        : AnnotatedMember).isBlocked = true ∧
      ({ id := "2".data, displayName := "Bob".data, ensName := none
         walletAddress := "0xb".data, isBlocked := true, isStarred := false }
        : AnnotatedMember).isStarred = true) :=
  filteredMembers_blocked_never_starred "1".data (fun i => i == "2".data) ["2".data]
    [ { id := "2".data, displayName := "Bob".data, ensName := none, walletAddress := "0xb".data } ]
    "".data
    { id := "2".data, displayName := "Bob".data, ensName := none
      walletAddress := "0xb".data, isBlocked := true, isStarred := false }
    (by decide)

/-- Claim C7: whenever the viewer's own entry appears in the filter output,
its display name is the original roster display name with `" (you)"`
appended; the annotation happens before filtering, so this holds for every
query. -/
theorem filteredMembers_self_has_you_suffix (meId : JsString)
    (isUserBlocked : JsString → Bool) (starredUserIds : List JsString)
    (members : List RosterMember) (pendingInput : JsString) (m : AnnotatedMember)
    (hm : m ∈ filteredMembers meId isUserBlocked starredUserIds members pendingInput)
    (hid : m.id = meId) :
    ∃ x, x ∈ members ∧ x.id = meId ∧ m.displayName = x.displayName ++ " (you)".data := by
  obtain ⟨x, hx, rfl⟩ := List.mem_map.1 (mem_annotated_of_mem_filteredMembers hm)
  have hxid : x.id = meId := by
    rw [← annotateMember_id meId isUserBlocked starredUserIds x]
    exact hid
  refine ⟨x, hx, hxid, ?_⟩
  simp [annotateMember, hxid]

/-- Witness for the C7 theorem: the viewer appears as `"Alice (you)"`. -/
theorem filteredMembers_self_has_you_suffix_witness :
    ∃ x, x ∈
        [ ({ id := "1".data, displayName := "Alice".data, ensName := none
             walletAddress := "0xa".data } : RosterMember) ] ∧
      x.id = "1".data ∧ ("Alice (you)".data : JsString) = x.displayName ++ " (you)".data :=
  filteredMembers_self_has_you_suffix "1".data (fun _ => false) []
    [ { id := "1".data, displayName := "Alice".data, ensName := none, walletAddress := "0xa".data } ]
    "".data
    { id := "1".data, displayName := "Alice (you)".data, ensName := none
      walletAddress := "0xa".data, isBlocked := false, isStarred := false }
    (by decide) (by decide)

/-- One reduce step keeps every non-head entry away from the `"eth"` tag:
the eth branch prepends the bucket and filters `"eth"` out of the rest, and
the append branch only appends a currency that does not end in `"eth"`. -/
theorem mergeAssetsStep_tail_no_eth (acc : List Asset) (a : Asset)
    (h : ∀ y ∈ acc.tail, y.currency ≠ "eth".data) :
    ∀ y ∈ (mergeAssetsStep acc a).tail, y.currency ≠ "eth".data := by
  unfold mergeAssetsStep
  split_ifs with hc
  · intro y hy
    simp only [List.tail_cons] at hy
    have := (List.mem_filter.1 hy).2
    simpa using this
  · intro y hy
    rcases acc with _ | ⟨z, t⟩
    · simp at hy
    · simp only [List.cons_append, List.tail_cons] at hy
      rcases List.mem_append.1 hy with h1 | h1
      · exact h y h1
      · have hya : y = a := by simpa using h1
        subst hya
        intro heq
        rw [heq] at hc
        exact absurd hc (by decide)

/-- The tail invariant of `mergeAssetsStep` carried through the whole fold. -/
theorem foldl_merge_tail_no_eth (l : List Asset) : ∀ (acc : List Asset),
    (∀ y ∈ acc.tail, y.currency ≠ "eth".data) →
    ∀ y ∈ (l.foldl mergeAssetsStep acc).tail, y.currency ≠ "eth".data := by
  induction l with
  | nil => intro acc hacc; simpa using hacc
  | cons a as ih =>
    intro acc hacc
    rw [List.foldl_cons]
    exact ih _ (mergeAssetsStep_tail_no_eth acc a hacc)

/-- Claim C10: for every input asset list, the merged output contains at most
one `"eth"` entry, and whenever an `"eth"` entry exists it is the first
element of the list. -/
theorem mergeRequestedAssets_single_eth_head (assets : List Asset) :
    (mergeRequestedAssets assets).countP (fun a => a.currency == "eth".data) ≤ 1 ∧
    ∀ x ∈ mergeRequestedAssets assets, x.currency = "eth".data →
      (mergeRequestedAssets assets).head? = some x := by
  have htail : ∀ y ∈ (mergeRequestedAssets assets).tail, y.currency ≠ "eth".data :=
    foldl_merge_tail_no_eth assets [] (by simp)
  constructor
  · rcases hres : mergeRequestedAssets assets with _ | ⟨z, t⟩
    · simp
    · rw [hres] at htail
      have ht0 : t.countP (fun a => a.currency == "eth".data) = 0 :=
        List.countP_eq_zero.2 fun y hy => by simpa using htail y hy
      simp only [List.countP_cons, ht0]
      split <;> simp
  · intro x hx hcurr
    rcases hres : mergeRequestedAssets assets with _ | ⟨z, t⟩
    · rw [hres] at hx
      simp at hx
    · rw [hres] at hx htail
      rcases List.mem_cons.1 hx with rfl | hxt
      · rfl
      · exact absurd hcurr (htail x hxt)

/-- Witness for the C10 theorem: a single weth input folds into an `"eth"`
bucket sitting at the head of the output. -/
theorem mergeRequestedAssets_single_eth_head_witness :
    (mergeRequestedAssets [{ currency := "weth".data, amount := 5, tokens := [] }]).countP
        (fun a => a.currency == "eth".data) ≤ 1 ∧
    (mergeRequestedAssets [{ currency := "weth".data, amount := 5, tokens := [] }]).head? =
      some { currency := "eth".data, amount := 5, tokens := [] } :=
  ⟨(mergeRequestedAssets_single_eth_head
      [{ currency := "weth".data, amount := 5, tokens := [] }]).1,
   (mergeRequestedAssets_single_eth_head
      [{ currency := "weth".data, amount := 5, tokens := [] }]).2
     { currency := "eth".data, amount := 5, tokens := [] } (by decide) (by decide)⟩
